import Mathlib

/-!
Verification development for the publish-event synchronization pipeline of the
arxiv-browse repository (`script/sync_prod_to_gcp/submissions_to_gcp.py`).

The Python source is shallowly embedded: each Python function or method is
translated into an executable Lean definition over explicit state.  Exceptions
are modelled with `Except PyExc`; the legacy (CIT) filesystem and the GCP
object store are modelled as explicit values passed to the functions that
consult them.  Helpers imported by the script from modules that are not part
of the analysed sources (`sync_published_to_gcp`, `identifier`, the Python
standard library) are modelled from the specification and documented as such.
-/

set_option autoImplicit false

namespace SubsToGcp

/-- The exception kinds that the embedded code can raise.  The first four are
the script's own exception classes; the rest model Python built-in exceptions
and exceptions of library calls. -/
inductive PyExc where
  | ignoredSubmission
  | removedSubmission
  | missingGeneratedFile
  | invalidVersion
  | identifierError
  | attributeError
  | typeError
  | assertionError
  | badGzError
  | fileNotFound
  | notFound
  | connectionError
  | unicodeDecodeError
  | jsonDecodeError
deriving DecidableEq, Repr

/-- Python `str` or `None`: `none` models `None`. -/
abbrev PyStrOpt := Option String

/-- Truthiness of a Python string-or-None value (`None` and `""` are falsy). -/
def pyFalsy : PyStrOpt → Bool
  | none => true
  | some s => s.data.isEmpty

/-- Rendering of a string-or-None value inside an f-string (`None` prints as
the four characters `None`). -/
def pyStr : PyStrOpt → String
  | none => "None"
  | some s => s

/-- Python `str.strip()` (whitespace stripped from both ends). -/
def pyStrip (s : String) : String :=
  String.mk (((s.data.dropWhile Char.isWhitespace).reverse.dropWhile Char.isWhitespace).reverse)

/-- Python `str.startswith`. -/
def pyStartsWith (s pre : String) : Bool :=
  pre.data.isPrefixOf s.data

/-- Drop the first `n` characters of a string. -/
def dropChars (s : String) (n : Nat) : String :=
  String.mk (s.data.drop n)

/-- The digits of a list of characters read as a base-10 natural number. -/
def digitsToNat (ds : List Char) : Nat :=
  ds.foldl (fun a c => a * 10 + (c.toNat - 48)) 0

/-- Model of Python `int(s)` on a string argument: surrounding whitespace is
allowed, then an optional sign and a nonempty digit sequence.  (Underscore
digit separators, accepted by Python, are not modelled.) -/
def pyParseInt (s : String) : Option Int :=
  let cs := ((s.data.dropWhile Char.isWhitespace).reverse.dropWhile Char.isWhitespace).reverse
  let p : Bool × List Char :=
    match cs with
    | '-' :: r => (true, r)
    | '+' :: r => (false, r)
    | _ => (false, cs)
  if p.2.isEmpty then none
  else if p.2.all Char.isDigit then
    some (if p.1 then -(digitsToNat p.2 : Int) else (digitsToNat p.2 : Int))
  else none

/-- The possible shapes of the `version` field of a decoded message, as seen
by `int(version)`: a JSON/Python integer, a string, or a value on which
`int()` raises (`None`, lists, objects). -/
inductive VersionArg where
  | vint (n : Int)
  | vstr (s : String)
  | vnone
deriving DecidableEq, Repr

/-- Model of Python `int(version)`: `none` means the call raises. -/
def intOf : VersionArg → Option Int
  | .vint n => some n
  | .vstr s => pyParseInt s
  | .vnone => none

/-- Rendering of the raw version value inside an f-string. -/
def versionStr : VersionArg → String
  | .vint n => toString n
  | .vstr s => s
  | .vnone => "None"

/-- Modelled from the spec: the arXiv `Identifier` value (the `identifier`
module imported by the script is not among the analysed sources).  Only the
attributes the script reads are kept: `ids` (the original string), old-style
archive detection, `yymm`, `filename` (the id without archive and version),
`has_version` and the versioned id string `idv`. -/
structure Identifier where
  ids : String
  isOld : Bool
  archive : String
  yymm : String
  filename : String
  hasVersion : Bool
  idv : String
deriving DecidableEq, Repr

/-- Split a trailing `v<digits>` version suffix off an id string. -/
def splitVer (cs : List Char) : List Char × Option (List Char) :=
  let rev := cs.reverse
  let ds := rev.takeWhile Char.isDigit
  match rev.drop ds.length with
  | 'v' :: base => if ds.isEmpty then (cs, none) else (base.reverse, some ds.reverse)
  | _ => (cs, none)

/-- Modelled from the spec: construction of an `Identifier` from an id string
(canonical or versioned, new-style `YYMM.NNNNN` or old-style
`archive/YYMMNNN`).  `none` models the constructor raising on a malformed
id. -/
def mkIdentifier (s : String) : Option Identifier :=
  let p := splitVer s.data
  let base := p.1
  let baseStr := String.mk base
  if base.contains '/' then
    let arch := base.takeWhile (fun c => c ≠ '/')
    let rest := (base.dropWhile (fun c => c ≠ '/')).drop 1
    if arch.isEmpty ∨ rest.length < 5 ∨ ¬ (rest.take 4).all Char.isDigit then none
    else
      some { ids := s, isOld := true, archive := String.mk arch,
             yymm := String.mk (rest.take 4), filename := String.mk rest,
             hasVersion := p.2.isSome, idv := if p.2.isSome then s else baseStr }
  else
    if base.length < 6 ∨ ¬ (base.take 4).all Char.isDigit ∨ base.get? 4 ≠ some '.' ∨
        ¬ (base.drop 5).all Char.isDigit ∨ (base.drop 5).isEmpty then none
    else
      some { ids := s, isOld := false, archive := "arxiv",
             yymm := String.mk (base.take 4), filename := baseStr,
             hasVersion := p.2.isSome, idv := if p.2.isSome then s else baseStr }

/-- Modelled from the spec: the root of the `ftp` ("current") legacy path
template (`FTP_PREFIX` of sync_published_to_gcp). -/
def ftpRoot : String := "/data/ftp/"

/-- Modelled from the spec: the root of the `orig` ("original") legacy path
template (`ORIG_PREFIX` of sync_published_to_gcp). -/
def origRoot : String := "/data/orig/"

/-- Modelled from the spec: the root of the derived-artifact cache path
template (`PS_CACHE_PREFIX` of sync_published_to_gcp). -/
def psCacheRoot : String := "/cache/ps_cache/"

/-- Modelled from the spec: `path_to_bucket_key` of sync_published_to_gcp,
the fixed reversible rewrite from a legacy path to a destination key. -/
def path_to_bucket_key (p : String) : String :=
  if pyStartsWith p "/cache/" then dropChars p 7
  else if pyStartsWith p "/data/" then dropChars p 6
  else p

/-- The fixed extension priority list `SubmissionFilesState.submission_exts`. -/
def submission_exts : List String := [".tar.gz", ".gz", ".pdf", ".html.gz"]

/-- The `ext_candidates` list built by `SubmissionFilesState.__init__`: the
priority list, with a truthy `src_ext` moved to the front (removed first when
it occurs in `submission_exts[1:]`). -/
def mk_ext_candidates (src_ext : PyStrOpt) : List String :=
  match src_ext with
  | none => submission_exts
  | some e =>
    if e.data.isEmpty then submission_exts
    else if submission_exts.tail.contains e then e :: submission_exts.erase e
    else e :: submission_exts

/-- The state held by a `SubmissionFilesState` object. -/
structure FileState where
  xid : Identifier
  vxid : Identifier
  versionRaw : VersionArg
  publish_type : PyStrOpt
  src_ext : PyStrOpt
  source_format : String
  source_flags : String
  single_source : Bool
  archive : String
  prev_version : Int
  ext_candidates : List String
deriving DecidableEq, Repr

/-- `SubmissionFilesState.__init__`: version validation (`InvalidVersion` on a
non-positive or unparseable version), identifier construction, and the
derived fields.  A non-string `paper_id` (`none`) makes the `Identifier`
constructor raise, which is not an `InvalidVersion`. -/
def initFileState (paper_id : PyStrOpt) (version : VersionArg) (publish_type : PyStrOpt)
    (src_ext : PyStrOpt) (source_format : String) : Except PyExc FileState :=
  match intOf version with
  | none => .error .invalidVersion
  | some v =>
    if v ≤ 0 then .error .invalidVersion
    else
      match paper_id with
      | none => .error .identifierError
      | some pid =>
        match mkIdentifier pid with
        | none => .error .identifierError
        | some xid =>
          let vx : Except PyExc Identifier :=
            if xid.hasVersion then .ok xid
            else
              match mkIdentifier (pid ++ "v" ++ versionStr version) with
              | none => .error .identifierError
              | some vxid => .ok vxid
          match vx with
          | .error e => .error e
          | .ok vxid =>
            .ok { xid := xid, vxid := vxid, versionRaw := version,
                  publish_type := publish_type, src_ext := src_ext,
                  source_format := source_format, source_flags := "",
                  single_source := false,
                  archive := if xid.isOld then xid.archive else "arxiv",
                  prev_version := max 1 (v - 1),
                  ext_candidates := mk_ext_candidates src_ext }

/-- `SubmissionFilesState.latest_dir`. -/
def latest_dir (st : FileState) : String :=
  ftpRoot ++ st.archive ++ "/papers/" ++ st.xid.yymm

/-- `SubmissionFilesState.gz_source`. -/
def gz_source (st : FileState) : String :=
  latest_dir st ++ "/" ++ st.xid.filename ++ ".gz"

/-- `SubmissionFilesState.tgz_source`. -/
def tgz_source (st : FileState) : String :=
  latest_dir st ++ "/" ++ st.xid.filename ++ ".tar.gz"

/-- `SubmissionFilesState.ps_cache_pdf_file`. -/
def ps_cache_pdf_file (st : FileState) : String :=
  psCacheRoot ++ st.archive ++ "/pdf/" ++ st.xid.yymm ++ "/" ++ st.vxid.idv ++ ".pdf"

/-- The directory path the `SubmissionFilesState.html_file` method returns
when it is called (in the source it never is: the method object itself is
stored in the expected-file entry). -/
def html_file_path (st : FileState) : String :=
  psCacheRoot ++ st.archive ++ "/html/" ++ st.xid.yymm ++ "/" ++ st.vxid.idv ++ "/"

/-- `SubmissionFilesState.versioned_parent`. -/
def versioned_parent (st : FileState) : String :=
  origRoot ++ st.archive ++ "/papers/" ++ st.xid.yymm

/-- `SubmissionFilesState.source_path`. -/
def source_path (st : FileState) (dotext : String) : String :=
  latest_dir st ++ "/" ++ st.xid.filename ++ dotext

/-- `SubmissionFilesState.prev_source_path`. -/
def prev_source_path (st : FileState) (dotext : String) : String :=
  versioned_parent st ++ "/" ++ st.xid.filename ++ "v" ++ toString st.prev_version ++ dotext

/-- The legacy (CIT) filesystem as the script observes it.
`fileSize` is `some` exactly when the path exists (also the size consulted by
the modelled `upload`); `tgzNames` is the member-name list of the tar archive
at a path when the archive exists and is readable, `[]` otherwise (matching
`get_tgz_top_levels`, which leaves `_top_levels` empty in both cases);
`gzText` is the decompressed text of the gzip file at a path, `none` when
reading raises; `absLines` is the line list (without newlines) of the text
file at a path, `none` when opening or reading raises. -/
structure CitFS where
  fileSize : String → Option Nat
  tgzNames : String → List String
  gzText : String → Option String
  absLines : String → Option (List String)

/-- `os.path.exists` / `Path.exists`. -/
def pathExists (fs : CitFS) (p : String) : Bool :=
  (fs.fileSize p).isSome

/-- `SubmissionFilesState.is_removed`: membership of `removed.txt` among the
archive's member names. -/
def is_removed (fs : CitFS) (st : FileState) : Bool :=
  (fs.tgzNames (tgz_source st)).contains "removed.txt"

/-- `SubmissionFilesState.is_ignored`: when the single-file `.gz` source
exists, it is opened and the submission is ignored exactly when the
decompressed text starts with `%auto-ignore`; a read failure is re-raised. -/
def is_ignored (fs : CitFS) (st : FileState) : Except PyExc Bool :=
  if pathExists fs (gz_source st) then
    match fs.gzText (gz_source st) with
    | none => .error .badGzError
    | some t => .ok (pyStartsWith t "%auto-ignore")
  else .ok false

/-- The `flag_to_source_format` table. -/
def flag_to_source_format (c : Char) : Option String :=
  if c = 'D' then some "pdftex"
  else if c = 'H' then some "html"
  else if c = 'I' then some "withdrawn"
  else if c = 'O' then some "odf"
  else if c = 'P' then some "ps"
  else if c = 'X' then some "docx"
  else none

/-- The per-character loop of `maybe_update_metadata` over the parsed
source-type code.  A known character overwrites `source_format`; an `S`, `A`
or `B` character reaches `self.source_flags.append(...)`, and since
`source_flags` is a `str` (initialised to `""`), that attribute access raises
`AttributeError`. -/
def scanSourceType : List Char → String → String → Except PyExc (String × String)
  | [], fmt, flags => .ok (fmt, flags)
  | c :: rest, fmt, flags =>
    match flag_to_source_format c with
    | some f => scanSourceType rest f flags
    | none =>
      if c = 'S' ∨ c = 'A' ∨ c = 'B' then .error .attributeError
      else scanSourceType rest fmt flags

/-- The `Date` lines collected from the `.abs` sidecar: stripped lines before
the first blank line that start with `Date`. -/
def collectDates : List String → List String
  | [] => []
  | l :: ls =>
    let s := pyStrip l
    if s.data.isEmpty then []
    else if pyStartsWith s "Date" then s :: collectDates ls
    else collectDates ls

/-- Consume one-or-more digits. -/
def dropDigits1 (cs : List Char) : Option (List Char) :=
  let p := List.span Char.isDigit cs
  if p.1.isEmpty then none else some p.2

/-- At a position in the line: match `\(\d+kb,?` and return what follows. -/
def matchKb (cs : List Char) : Option (List Char) :=
  match cs with
  | '(' :: rest =>
    match dropDigits1 rest with
    | none => none
    | some r =>
      match r with
      | 'k' :: 'b' :: r2 =>
        match r2 with
        | ',' :: r3 => some r3
        | _ => some r2
      | _ => none
  | _ => none

/-- Scan the line body for the first `\s+\(\d+kb,?` occurrence, returning the
characters that follow (the source-type group plus the final parenthesis has
already been removed by the caller). -/
def scanForGroup : List Char → Option (List Char)
  | [] => none
  | c :: rest =>
    if c.isWhitespace then
      match matchKb rest with
      | some r => some r
      | none => scanForGroup rest
    else scanForGroup rest

/-- After `(revised`, find the first `):` and return what follows. -/
def afterRevised : List Char → Option (List Char)
  | [] => none
  | ')' :: ':' :: rest => some rest
  | _ :: rest => afterRevised rest

/-- The mandatory head of `RE_DATE_COMPONENTS`:
`^Date\s*(?::|\(revised ...\):)`.  Returns the rest of the line after the
colon, or `none` when the regular expression does not match at all. -/
def stripDatePrefix (cs : List Char) : Option (List Char) :=
  match cs with
  | 'D' :: 'a' :: 't' :: 'e' :: rest =>
    let r := rest.dropWhile Char.isWhitespace
    match r with
    | ':' :: r2 => some r2
    | '(' :: r2 =>
      match r2 with
      | 'r' :: 'e' :: 'v' :: 'i' :: 's' :: 'e' :: 'd' :: r3 => afterRevised r3
      | _ => none
    | _ => none
  | _ => none

/-- Model of matching `RE_DATE_COMPONENTS` against a `Date` line and reading
its `source_type` group: `none` means the expression does not match (the
`if parsed:` guard fails); `some none` means it matches but the optional
trailing `(\d+kb,?...)` group is absent, so the group is Python `None`;
`some (some t)` gives the group's text. -/
def extractSourceType (s : String) : Option (Option String) :=
  match stripDatePrefix s.data with
  | none => none
  | some rest =>
    match rest.getLast? with
    | some ')' =>
      match scanForGroup rest.dropLast with
      | some t => some (some (String.mk t))
      | none => some none
    | _ => some none

/-- The `dates`-processing step of `maybe_update_metadata`: the last `Date`
line is matched; when the match carries a source-type group the per-character
loop runs (`for source_flag in source_type`), and when the group is `None`
that loop raises `TypeError`. -/
def applyDates (st : FileState) (dates : List String) : Except PyExc FileState :=
  match dates.getLast? with
  | none => .ok st
  | some d =>
    match extractSourceType d with
    | none => .ok st
    | some none => .error .typeError
    | some (some t) =>
      match scanSourceType t.data st.source_format st.source_flags with
      | .error e => .error e
      | .ok p => .ok { st with source_format := p.1, source_flags := p.2 }

/-- The `src_ext`-probing step of `maybe_update_metadata`: when `src_ext` is
falsy, the first candidate extension whose latest-path exists becomes
`src_ext`. -/
def probe_src_ext (fs : CitFS) (st : FileState) : FileState :=
  if pyFalsy st.src_ext then
    match st.ext_candidates.find? (fun e => pathExists fs (source_path st e)) with
    | some e => { st with src_ext := some e }
    | none => st
  else st

/-- An entry of the `src_ext_to_source_format` table: a plain format string,
or the two-valued dictionary used for `.gz`. -/
inductive SrcExtEntry where
  | plain (f : String)
  | gzDict
deriving DecidableEq, Repr

/-- The `src_ext_to_source_format` table (note the Python `None` key). -/
def srcExtTable : PyStrOpt → Option SrcExtEntry
  | some ".html.gz" => some (.plain "html")
  | some ".ps.gz" => some (.plain "ps")
  | some ".pdf" => some (.plain "pdf")
  | some ".gz" => some .gzDict
  | none => some (.plain "tex")
  | some _ => none

/-- `SubmissionFilesState.maybe_update_metadata`. -/
def maybe_update_metadata (fs : CitFS) (st0 : FileState) : Except PyExc FileState :=
  let st := probe_src_ext fs st0
  if ¬ st.source_format.data.isEmpty then .ok st
  else
    let dates := collectDates ((fs.absLines (source_path st ".abs")).getD [])
    match applyDates st dates with
    | .error e => .error e
    | .ok st1 =>
      let st2 := { st1 with single_source := decide (st1.src_ext ≠ some ".tar.gz") }
      if st2.single_source = false then
        .ok (if st2.source_format.data.isEmpty then { st2 with source_format := "tex" } else st2)
      else
        match srcExtTable st2.src_ext with
        | none => .ok st2
        | some (.plain f) => .ok { st2 with source_format := f }
        | some .gzDict =>
          .ok { st2 with source_format :=
                  if st2.source_format = "pdftex" then "pdftex" else "tex" }

/-- `SubmissionFilesState.is_tex_submission` (a property guarded by two
`assert` statements, which raise when `src_ext` or `source_format` is
falsy). -/
def is_tex_submission (st : FileState) : Except PyExc Bool :=
  if pyFalsy st.src_ext then .error .assertionError
  else if st.source_format.data.isEmpty then .error .assertionError
  else .ok (st.source_format = "tex" ∨ st.source_format = "pdftex")

/-- `SubmissionFilesState.is_html_submission` (same `assert` guards). -/
def is_html_submission (st : FileState) : Except PyExc Bool :=
  if pyFalsy st.src_ext then .error .assertionError
  else if st.source_format.data.isEmpty then .error .assertionError
  else .ok (st.source_format = "html")

/-- The Python value stored under the `cit` key of an expected-file entry:
normally a path string, but the html branch of `get_expected_files` stores
the attribute `self.html_file` itself — a bound method object, not the string
the method would return. -/
inductive CitVal where
  | path (s : String)
  | method (name : String)
deriving DecidableEq, Repr

/-- `str()` of a `cit` value (a bound method renders as its repr). -/
def citStr : CitVal → String
  | .path s => s
  | .method n => "<bound method SubmissionFilesState." ++ n ++ ">"

/-- `Path(...)` applied to a `cit` value: on a bound method object the
`Path` constructor raises `TypeError`. -/
def citPath : CitVal → Except PyExc String
  | .path s => .ok s
  | .method _ => .error .typeError

/-- One dictionary of the list built by `get_expected_files`. -/
structure FileEntry where
  etype : String
  cit : CitVal
  status : String
  gcp : String
deriving DecidableEq, Repr

/-- The final loop of `get_expected_files`: store the destination key
computed by `path_to_bucket_key` in the entry. -/
def addGcp (e : FileEntry) : FileEntry :=
  { e with gcp := path_to_bucket_key (citStr e.cit) }

/-- The `current`-status entries of `get_expected_files`, together with the
state updated by `maybe_update_metadata` (run only in the live branch). -/
def current_entries (fs : CitFS) (st : FileState) : Except PyExc (FileState × List FileEntry) :=
  let absE : FileEntry := ⟨"abstract", .path (source_path st ".abs"), "current", ""⟩
  if is_removed fs st then
    .ok (st, [absE, ⟨"submission", .path (tgz_source st), "current", ""⟩])
  else
    match is_ignored fs st with
    | .error e => .error e
    | .ok true => .ok (st, [absE, ⟨"submission", .path (gz_source st), "current", ""⟩])
    | .ok false =>
      match maybe_update_metadata fs st with
      | .error e => .error e
      | .ok st1 =>
        let subE : FileEntry :=
          ⟨"submission", .path (source_path st1 (pyStr st1.src_ext)), "current", ""⟩
        match is_tex_submission st1 with
        | .error e => .error e
        | .ok true =>
          .ok (st1, [absE, subE, ⟨"pdf-cache", .path (ps_cache_pdf_file st1), "current", ""⟩])
        | .ok false =>
          match is_html_submission st1 with
          | .error e => .error e
          | .ok true =>
            .ok (st1, [absE, subE, ⟨"html-cache", .method "html_file", "current", ""⟩])
          | .ok false => .ok (st1, [absE, subE])

/-- The extension chosen for the obsolete submission entry: the first of the
priority list whose previous-version path exists, else the current
`src_ext`. -/
def obsoleteExt (fs : CitFS) (st : FileState) : String :=
  match submission_exts.find? (fun e => pathExists fs (prev_source_path st e)) with
  | some e => e
  | none => pyStr st.src_ext

/-- The `obsolete`-status entries of `get_expected_files`, produced only for
`rep` and `wdr` publish types. -/
def obsolete_block (fs : CitFS) (st : FileState) : List FileEntry :=
  if st.publish_type = some "rep" ∨ st.publish_type = some "wdr" then
    [⟨"abstract", .path (prev_source_path st ".abs"), "obsolete", ""⟩,
     match submission_exts.find? (fun e => pathExists fs (prev_source_path st e)) with
     | some e => ⟨"submission", .path (prev_source_path st e), "obsolete", ""⟩
     | none => ⟨"submission", .path (prev_source_path st (pyStr st.src_ext)), "obsolete", ""⟩]
  else []

/-- `SubmissionFilesState.get_expected_files`, returning both the (mutated)
state and the entry list. -/
def get_expected_files (fs : CitFS) (st : FileState) :
    Except PyExc (FileState × List FileEntry) :=
  match current_entries fs st with
  | .error e => .error e
  | .ok p => .ok (p.1, (p.2 ++ obsolete_block fs p.1).map addGcp)

/-- The webnode environment seen by one processing attempt: artifact
existence at the pre-check and at the post-check, and the outcome of the
`ensure_pdf` / `ensure_html` requests (`.error` models the request raising,
e.g. a transport error). -/
structure WebEnv where
  existsBefore : String → Bool
  existsAfter : String → Bool
  ensurePdf : Except PyExc Unit
  ensureHtml : Except PyExc Unit

/-- The body of the `ask_webnode` loop of `submission_message_to_file_state`
for one entry: for a derived-artifact entry, when the artifact is absent the
generation request is issued, and an exception from the request is logged and
re-raised; afterwards the post-check alone decides between success and
`MissingGeneratedFile`. -/
def ask_webnode_entry (env : WebEnv) (e : FileEntry) : Except PyExc Unit :=
  if e.etype = "pdf-cache" then
    match citPath e.cit with
    | .error err => .error err
    | .ok p =>
      match (if env.existsBefore p then .ok () else env.ensurePdf : Except PyExc Unit) with
      | .error err => .error err
      | .ok _ => if env.existsAfter p then .ok () else .error .missingGeneratedFile
  else if e.etype = "html-cache" then
    match citPath e.cit with
    | .error err => .error err
    | .ok p =>
      match (if env.existsBefore p then .ok () else env.ensureHtml : Except PyExc Unit) with
      | .error err => .error err
      | .ok _ => if env.existsAfter p then .ok () else .error .missingGeneratedFile
  else .ok ()

/-- The `ask_webnode` loop over all expected entries. -/
def askLoop (env : WebEnv) : List FileEntry → Except PyExc Unit
  | [] => .ok ()
  | e :: rest =>
    match ask_webnode_entry env e with
    | .error err => .error err
    | .ok _ => askLoop env rest

/-- The decoded message fields consumed by the pipeline
(`data.get('type')`, `data.get('paper_id')`, `data.get('version')`,
`data.get('src_ext')`, `data.get('source_format', '')`). -/
structure MsgData where
  publish_type : PyStrOpt
  paper_id : PyStrOpt
  version : VersionArg
  src_ext : PyStrOpt
  source_format : String
deriving DecidableEq, Repr

/-- `submission_message_to_file_state`: build the state, and when
`ask_webnode` is set, walk the expected files ensuring derived artifacts
exist on the legacy host. -/
def submission_message_to_file_state (fs : CitFS) (env : WebEnv) (d : MsgData)
    (ask_webnode : Bool) : Except PyExc FileState :=
  match initFileState d.paper_id d.version d.publish_type d.src_ext d.source_format with
  | .error e => .error e
  | .ok st =>
    if ask_webnode then
      match get_expected_files fs st with
      | .error e => .error e
      | .ok p =>
        match askLoop env p.2 with
        | .error e => .error e
        | .ok _ => .ok p.1
    else .ok st

/-! ### The object store and `sync_to_gcp` -/

/-- The destination bucket, modelled as an association list from object key
to object size (the only attribute the pipeline's skip-if-unchanged upload
consults). -/
abbrev Store := List (String × Nat)

/-- Look up the first binding of a key. -/
def storeFind : Store → String → Option Nat
  | [], _ => none
  | (k, v) :: rest, key => if k = key then some v else storeFind rest key

/-- Remove every binding of a key. -/
def storeErase : Store → String → Store
  | [], _ => []
  | (k, v) :: rest, key =>
    if k = key then storeErase rest key else (k, v) :: storeErase rest key

/-- Bind a key to a value, replacing previous bindings. -/
def storeInsert (sto : Store) (k : String) (v : Nat) : Store :=
  (k, v) :: storeErase sto k

/-- `list_bucket_objects`: the keys currently present under a destination
key prefix. -/
def list_bucket_objects (sto : Store) (pre : String) : List String :=
  (sto.filter (fun p => pyStartsWith p.1 pre)).map Prod.fst

/-- The trash destination of a key (`"/".join(['trash'] + obj.split('/'))`). -/
def trashKey (k : String) : String := "trash/" ++ k

/-- `trash_bucket_objects`: each listed extra object is renamed (not
deleted) to its trash destination; renaming a key that is no longer present
raises. -/
def trash_bucket_objects (sto : Store) : List String → Except PyExc Store
  | [] => .ok sto
  | obj :: rest =>
    match storeFind sto obj with
    | none => .error .notFound
    | some v => trash_bucket_objects (storeInsert (storeErase sto obj) (trashKey obj) v) rest

/-- Modelled from the spec: `upload` of sync_published_to_gcp — a
skip-if-unchanged copy: when the destination object exists with the local
file's size no bytes are transferred, otherwise the object is (re)written.
Uploading a missing local file raises.  Returns the store and the number of
bytes transferred. -/
def upload (fs : CitFS) (sto : Store) (localPath : String) (key : String) :
    Except PyExc (Store × Nat) :=
  match fs.fileSize localPath with
  | none => .error .fileNotFound
  | some n =>
    if storeFind sto key = some n then .ok (sto, 0)
    else .ok (storeInsert sto key n, n)

/-- The upload loop of `sync_to_gcp`: upload every expected entry and drop
its destination key from the listed snapshot.  Returns the store, the total
bytes transferred, and the keys remaining in the snapshot. -/
def upload_entries (fs : CitFS) : List FileEntry → Store → Nat → List String →
    Except PyExc (Store × Nat × List String)
  | [], sto, bytes, rem => .ok (sto, bytes, rem)
  | e :: rest, sto, bytes, rem =>
    match citPath e.cit with
    | .error err => .error err
    | .ok localPath =>
      match upload fs sto localPath e.gcp with
      | .error err => .error err
      | .ok p => upload_entries fs rest p.1 (bytes + p.2) (rem.erase e.gcp)

/-- `sync_to_gcp`: list the destination snapshot under the paper's key
prefix, upload every expected file, and move the remaining listed objects to
the trash namespace.  Returns the final store, the bytes transferred by
uploads, and the list of keys moved to trash. -/
def sync_to_gcp (fs : CitFS) (sto : Store) (st : FileState) :
    Except PyExc (Store × Nat × List String) :=
  match get_expected_files fs st with
  | .error e => .error e
  | .ok p =>
    match upload_entries fs p.2 sto 0
        (list_bucket_objects sto (path_to_bucket_key (source_path p.1 ""))) with
    | .error e => .error e
    | .ok q =>
      if q.2.2.isEmpty then .ok (q.1, q.2.1, [])
      else
        match trash_bucket_objects q.1 q.2.2 with
        | .error e => .error e
        | .ok sto2 => .ok (sto2, q.2.1, q.2.2)

/-! ### Message decoding: UTF-8, JSON, `decode_message`, field access -/

/-- Is a byte a UTF-8 continuation byte? -/
def contByte (b : Nat) : Bool := 128 ≤ b && b < 192

/-- Model of strict UTF-8 decoding (`bytes.decode('utf-8')`): rejects stray
continuation bytes, overlong encodings, surrogate code points and code
points beyond U+10FFFF. -/
def utf8Decode : List Nat → Option (List Char)
  | [] => some []
  | b :: rest =>
    if b < 128 then
      match utf8Decode rest with
      | some cs => some (Char.ofNat b :: cs)
      | none => none
    else if b < 194 then none
    else if b < 224 then
      match rest with
      | b2 :: rest2 =>
        if contByte b2 then
          match utf8Decode rest2 with
          | some cs => some (Char.ofNat ((b - 192) * 64 + (b2 - 128)) :: cs)
          | none => none
        else none
      | [] => none
    else if b < 240 then
      match rest with
      | b2 :: b3 :: rest2 =>
        if contByte b2 && contByte b3 then
          let cp := (b - 224) * 4096 + (b2 - 128) * 64 + (b3 - 128)
          if cp < 2048 then none
          else if 55296 ≤ cp && cp < 57344 then none
          else
            match utf8Decode rest2 with
            | some cs => some (Char.ofNat cp :: cs)
            | none => none
        else none
      | _ => none
    else if b < 245 then
      match rest with
      | b2 :: b3 :: b4 :: rest2 =>
        if contByte b2 && contByte b3 && contByte b4 then
          let cp := (b - 240) * 262144 + (b2 - 128) * 4096 + (b3 - 128) * 64 + (b4 - 128)
          if cp < 65536 then none
          else if cp > 1114111 then none
          else
            match utf8Decode rest2 with
            | some cs => some (Char.ofNat cp :: cs)
            | none => none
        else none
      | _ => none
    else none

/-- A parsed JSON value.  Number lexemes are kept verbatim (their numeric
interpretation happens where the program converts them). -/
inductive JVal where
  | null
  | bool (b : Bool)
  | num (lexeme : String)
  | str (s : String)
  | arr (elems : List JVal)
  | obj (fields : List (String × JVal))

/-- JSON whitespace. -/
def isJsonWs (c : Char) : Bool := c == ' ' || c == '\t' || c == '\n' || c == '\r'

/-- Skip JSON whitespace. -/
def skipWs (cs : List Char) : List Char := cs.dropWhile isJsonWs

/-- Hexadecimal digit value. -/
def hexVal (c : Char) : Option Nat :=
  if c.isDigit then some (c.toNat - 48)
  else if 'a' ≤ c ∧ c ≤ 'f' then some (c.toNat - 87)
  else if 'A' ≤ c ∧ c ≤ 'F' then some (c.toNat - 55)
  else none

/-- Single-character JSON escapes. -/
def escChar (c : Char) : Option Char :=
  if c = '"' then some '"'
  else if c = '\\' then some '\\'
  else if c = '/' then some '/'
  else if c = 'b' then some (Char.ofNat 8)
  else if c = 'f' then some (Char.ofNat 12)
  else if c = 'n' then some '\n'
  else if c = 'r' then some '\r'
  else if c = 't' then some '\t'
  else none

/-- Parse the body of a JSON string after the opening quote, returning the
characters and the rest of the input.  (A `\uXXXX` escape denoting a lone
surrogate — accepted by Python's parser — is mapped to NUL.) -/
def parseStringChars : List Char → Option (List Char × List Char)
  | [] => none
  | '"' :: rest => some ([], rest)
  | '\\' :: rest =>
    match rest with
    | 'u' :: h1 :: h2 :: h3 :: h4 :: rest2 =>
      match hexVal h1, hexVal h2, hexVal h3, hexVal h4 with
      | some a, some b, some c, some d =>
        match parseStringChars rest2 with
        | some p => some (Char.ofNat (((a * 16 + b) * 16 + c) * 16 + d) :: p.1, p.2)
        | none => none
      | _, _, _, _ => none
    | e :: rest2 =>
      match escChar e with
      | some c =>
        match parseStringChars rest2 with
        | some p => some (c :: p.1, p.2)
        | none => none
      | none => none
    | [] => none
  | c :: rest =>
    if c.toNat < 32 then none
    else
      match parseStringChars rest with
      | some p => some (c :: p.1, p.2)
      | none => none

/-- Parse the exponent-and-end of a number lexeme. -/
def expPart (acc : List Char) (cs : List Char) : Option (JVal × List Char) :=
  match cs with
  | [] => some (.num (String.mk acc), [])
  | c :: r =>
    if c == 'e' || c == 'E' then
      let p : List Char × List Char :=
        match r with
        | '+' :: r2 => (['+'], r2)
        | '-' :: r2 => (['-'], r2)
        | _ => ([], r)
      let q := List.span Char.isDigit p.2
      if q.1.isEmpty then none
      else some (.num (String.mk (acc ++ c :: (p.1 ++ q.1))), q.2)
    else some (.num (String.mk acc), cs)

/-- Parse the fraction-and-exponent of a number lexeme. -/
def fracPart (acc : List Char) (cs : List Char) : Option (JVal × List Char) :=
  match cs with
  | '.' :: r =>
    let q := List.span Char.isDigit r
    if q.1.isEmpty then none else expPart (acc ++ '.' :: q.1) q.2
  | _ => expPart acc cs

/-- Parse a JSON number (no leading zeros, optional fraction and
exponent). -/
def parseNum (cs : List Char) : Option (JVal × List Char) :=
  let p : List Char × List Char :=
    match cs with
    | '-' :: r => (['-'], r)
    | _ => ([], cs)
  match p.2 with
  | [] => none
  | c :: r =>
    if c = '0' then fracPart (p.1 ++ ['0']) r
    else if c.isDigit then
      let q := List.span Char.isDigit r
      fracPart (p.1 ++ c :: q.1) q.2
    else none

mutual

/-- Parse one JSON value (fuel-bounded recursive descent). -/
def parseVal : Nat → List Char → Option (JVal × List Char)
  | 0, _ => none
  | Nat.succ fuel, cs =>
    match skipWs cs with
    | 'n' :: 'u' :: 'l' :: 'l' :: r => some (.null, r)
    | 't' :: 'r' :: 'u' :: 'e' :: r => some (.bool true, r)
    | 'f' :: 'a' :: 'l' :: 's' :: 'e' :: r => some (.bool false, r)
    | '"' :: r =>
      match parseStringChars r with
      | some p => some (.str (String.mk p.1), p.2)
      | none => none
    | '[' :: r => parseArrItems fuel r true []
    | '{' :: r => parseObjItems fuel r true []
    | other => parseNum other

/-- Parse array elements after `[` (`isFirst` true until an element has been
read). -/
def parseArrItems : Nat → List Char → Bool → List JVal → Option (JVal × List Char)
  | 0, _, _, _ => none
  | Nat.succ fuel, cs, isFirst, acc =>
    match skipWs cs with
    | ']' :: r => if isFirst then some (.arr acc.reverse, r) else none
    | other =>
      match parseVal fuel other with
      | some p =>
        match skipWs p.2 with
        | ']' :: r2 => some (.arr (p.1 :: acc).reverse, r2)
        | ',' :: r2 => parseArrItems fuel r2 false (p.1 :: acc)
        | _ => none
      | none => none

/-- Parse object members after `{`. -/
def parseObjItems : Nat → List Char → Bool → List (String × JVal) →
    Option (JVal × List Char)
  | 0, _, _, _ => none
  | Nat.succ fuel, cs, isFirst, acc =>
    match skipWs cs with
    | '}' :: r => if isFirst then some (.obj acc.reverse, r) else none
    | '"' :: r =>
      match parseStringChars r with
      | some kp =>
        match skipWs kp.2 with
        | ':' :: r3 =>
          match parseVal fuel r3 with
          | some vp =>
            match skipWs vp.2 with
            | '}' :: r5 => some (.obj ((String.mk kp.1, vp.1) :: acc).reverse, r5)
            | ',' :: r5 => parseObjItems fuel r5 false ((String.mk kp.1, vp.1) :: acc)
            | _ => none
          | none => none
        | _ => none
      | none => none
    | _ => none

end

/-- Model of `json.loads` as a plain parser: `some` exactly on the documents
the grammar accepts (Python's non-standard `NaN`/`Infinity` extensions are
not modelled). -/
def jsonParse (s : String) : Option JVal :=
  match parseVal (s.data.length + 1) s.data with
  | some p => if (skipWs p.2).isEmpty then some p.1 else none
  | none => none

/-- `message.data.decode('utf-8')`: raises `UnicodeDecodeError` on invalid
UTF-8. -/
def bytes_decode_utf8 (payload : List Nat) : Except PyExc String :=
  match utf8Decode payload with
  | some cs => .ok (String.mk cs)
  | none => .error .unicodeDecodeError

/-- `json.loads` as the raising library call. -/
def json_loads_exc (s : String) : Except PyExc JVal :=
  match jsonParse s with
  | some j => .ok j
  | none => .error .jsonDecodeError

/-- `decode_message`: the decode step is guarded by
`except UnicodeDecodeError` and the parse step by a bare `except Exception`;
both handlers log and return `None`. -/
def decode_message (payload : List Nat) : Except PyExc (Option JVal) :=
  match bytes_decode_utf8 payload with
  | .error e => if e = .unicodeDecodeError then .ok none else .error e
  | .ok s =>
    match json_loads_exc s with
    | .error _ => .ok none
    | .ok j => .ok (some j)

/-- The composed pure value of `decode_message`: the parsed document when the
payload is valid UTF-8 text holding a valid JSON document, `none`
otherwise. -/
def decoded_value (payload : List Nat) : Option JVal :=
  match utf8Decode payload with
  | none => none
  | some cs => jsonParse (String.mk cs)

/-- The last binding of a key among an object's members (JSON objects with
duplicate keys become Python dicts where the last binding wins). -/
def lookupLast (kvs : List (String × JVal)) (k : String) : Option JVal :=
  ((kvs.filter (fun p => p.1 == k)).map Prod.snd).getLast?

/-- `data.get(key)`: on a dict, the value bound to the key (or Python `None`,
which we model as an absent value `none`); on any other decoded JSON value
the attribute access raises `AttributeError`. -/
def pyDictGet (j : JVal) (k : String) : Except PyExc (Option JVal) :=
  match j with
  | .obj kvs =>
    .ok (match lookupLast kvs k with
         | some .null => none
         | v => v)
  | _ => .error .attributeError

/-- A JSON field holding a string, as the string-or-None the pipeline
consumes (non-string values are modelled as absent; the string comparisons
performed on them by the script are all false). -/
def jvalToOptStr : Option JVal → PyStrOpt
  | some (.str s) => some s
  | _ => none

/-- Truncation toward zero of a JSON number lexeme's exact decimal value
(`int(version)` on the float the JSON parser produced; IEEE-754 rounding of
the lexeme is not modelled). -/
def jsonNumToInt (lex : String) : Int :=
  let cs := lex.data
  let p : Bool × List Char :=
    match cs with
    | '-' :: r => (true, r)
    | _ => (false, cs)
  let ip := List.span Char.isDigit p.2
  let fp : List Char × List Char :=
    match ip.2 with
    | '.' :: r => List.span Char.isDigit r
    | _ => ([], ip.2)
  let e : Int :=
    match fp.2 with
    | c :: r =>
      if c == 'e' || c == 'E' then
        match r with
        | '-' :: ds => -(digitsToNat (ds.takeWhile Char.isDigit) : Int)
        | '+' :: ds => (digitsToNat (ds.takeWhile Char.isDigit) : Int)
        | ds => (digitsToNat (ds.takeWhile Char.isDigit) : Int)
      else 0
    | [] => 0
  let scale : Int := e - fp.1.length
  let mag : Nat := digitsToNat (ip.1 ++ fp.1)
  let m : Nat := if 0 ≤ scale then mag * 10 ^ scale.toNat else mag / 10 ^ (-scale).toNat
  if p.1 then -(m : Int) else (m : Int)

/-- The `version` field as the argument `int()` later receives. -/
def jvalToVersionArg : Option JVal → VersionArg
  | some (.num lex) => .vint (jsonNumToInt lex)
  | some (.str s) => .vstr s
  | some (.bool b) => .vint (if b then 1 else 0)
  | _ => .vnone

/-- The field reads performed on the decoded message
(`data.get('type')` etc.); these run before the callback's `try` block, so a
decoded payload that is not a JSON object raises here, outside every
handler. -/
def extractFields (data : JVal) : Except PyExc MsgData :=
  match pyDictGet data "type" with
  | .error e => .error e
  | .ok t =>
    match pyDictGet data "paper_id" with
    | .error e => .error e
    | .ok pid =>
      match pyDictGet data "version" with
      | .error e => .error e
      | .ok v =>
        match pyDictGet data "src_ext" with
        | .error e => .error e
        | .ok se =>
          match pyDictGet data "source_format" with
          | .error e => .error e
          | .ok sf =>
            .ok { publish_type := jvalToOptStr t, paper_id := jvalToOptStr pid,
                  version := jvalToVersionArg v, src_ext := jvalToOptStr se,
                  source_format :=
                    match sf with
                    | some (.str s) => s
                    | _ => "" }

/-! ### The per-message callback -/

/-- How one callback invocation ends: explicit ack, explicit nack, or an
exception escaping the callback (so the message is neither acked nor
nacked). -/
inductive CallbackResult where
  | ack
  | nack
  | uncaught (e : PyExc)
deriving DecidableEq, Repr

/-- The observable outcome of the callback: its result and which pipeline
stages were entered. -/
structure CallbackOutcome where
  result : CallbackResult
  stages : List String
deriving DecidableEq, Repr

/-- `submission_callback`: decode (a `None` is nacked with no further
processing), read the message fields (outside the `try` block), then the
guarded pipeline — resolve with webnode ensuring, the expected-file check,
and `sync_to_gcp` — nacking on any exception, acking only after a clean
reconcile. -/
def submission_callback (fs : CitFS) (env : WebEnv) (sto : Store)
    (payload : List Nat) : CallbackOutcome :=
  match decode_message payload with
  | .error e => ⟨.uncaught e, []⟩
  | .ok none => ⟨.nack, []⟩
  | .ok (some data) =>
    match extractFields data with
    | .error e => ⟨.uncaught e, ["extract"]⟩
    | .ok msg =>
      match submission_message_to_file_state fs env msg true with
      | .error _ => ⟨.nack, ["extract", "resolve"]⟩
      | .ok st =>
        match get_expected_files fs st with
        | .error _ => ⟨.nack, ["extract", "resolve"]⟩
        | .ok p =>
          if p.2.isEmpty then ⟨.nack, ["extract", "resolve"]⟩
          else
            match sync_to_gcp fs sto p.1 with
            | .error _ => ⟨.nack, ["extract", "resolve", "reconcile"]⟩
            | .ok _ => ⟨.ack, ["extract", "resolve", "reconcile"]⟩

/-! ### Concrete fixtures used by the witnesses and counterexamples -/

/-- A legacy filesystem with no files at all. -/
def fsEmpty : CitFS := ⟨fun _ => none, fun _ => [], fun _ => none, fun _ => none⟩

/-- A webnode environment where nothing exists and every request succeeds. -/
def envIdle : WebEnv := ⟨fun _ => false, fun _ => false, .ok (), .ok ()⟩

/-- A webnode environment where nothing exists and the PDF generation
request raises a transport error. -/
def envPdfDown : WebEnv := ⟨fun _ => false, fun _ => false, .error .connectionError, .ok ()⟩

/-- A webnode environment where nothing exists, the PDF request succeeds and
the HTML request raises a transport error. -/
def envHtmlDown : WebEnv := ⟨fun _ => false, fun _ => false, .ok (), .error .connectionError⟩

/-- A tex-family publish message. -/
def msgTex : MsgData := ⟨some "new", some "2301.00001", .vint 1, some ".tar.gz", "tex"⟩

/-- An html-family publish message. -/
def msgHtml : MsgData := ⟨some "new", some "2301.00001", .vint 1, some ".html.gz", "html"⟩

/-- The `.abs` sidecar content of the C3 fixture: the trailing `Date` line
carries the source-type code `SD`. -/
def absLinesSD : List String :=
  ["arXiv:2301.00001", "From: Example Author",
   "Date: Thu, 1 Feb 2024 01:02:03 GMT   (100kb,SD)"]

/-- A filesystem whose only content is the C3 fixture's `.abs` sidecar. -/
def fsAbsSD : CitFS :=
  ⟨fun _ => none, fun _ => [], fun _ => none,
   fun p => if p = "/data/ftp/arxiv/papers/2301/2301.00001.abs" then some absLinesSD else none⟩

/-- A legacy filesystem holding a tex submission's `.abs`, `.tar.gz` and
rendered PDF. -/
def fsTex : CitFS :=
  ⟨fun p =>
    if p = "/data/ftp/arxiv/papers/2301/2301.00001.abs" then some 3
    else if p = "/data/ftp/arxiv/papers/2301/2301.00001.tar.gz" then some 10
    else if p = "/cache/ps_cache/arxiv/pdf/2301/2301.00001v1.pdf" then some 7
    else none,
   fun _ => [], fun _ => none, fun _ => none⟩

/-- A placeholder identifier (used only as a default in fixture
extraction). -/
def dummyIdent : Identifier := ⟨"", false, "", "", "", false, ""⟩

/-- A placeholder state (used only as a default in fixture extraction). -/
def dummyState : FileState :=
  ⟨dummyIdent, dummyIdent, .vnone, none, none, "", "", false, "", 1, []⟩

/-- The resolved state of the tex fixture. -/
def stTex : FileState :=
  match initFileState (some "2301.00001") (.vint 1) (some "new") (some ".tar.gz") "tex" with
  | .ok st => st
  | .error _ => dummyState

/-- The expected files of the tex fixture. -/
def gefTex : FileState × List FileEntry :=
  match get_expected_files fsTex stTex with
  | .ok p => p
  | .error _ => (dummyState, [])

/-- A store already synced to the tex fixture's expected set. -/
def stoSynced : Store :=
  [("ftp/arxiv/papers/2301/2301.00001.abs", 3),
   ("ftp/arxiv/papers/2301/2301.00001.tar.gz", 10),
   ("ps_cache/arxiv/pdf/2301/2301.00001v1.pdf", 7)]

/-- The synced store plus one unexpected object under the paper's key
prefix. -/
def stoExtra : Store :=
  stoSynced ++ [("ftp/arxiv/papers/2301/2301.00001.xyz", 5)]

/-- The result of reconciling the store holding the unexpected object. -/
def res4 : Store × Nat × List String :=
  match sync_to_gcp fsTex stoExtra stTex with
  | .ok r => r
  | .error _ => ([], 0, [])

/-- The resolved state of a `rep` (version 2) fixture. -/
def stRep : FileState :=
  match initFileState (some "2301.00001") (.vint 2) (some "rep") (some ".pdf") "pdf" with
  | .ok st => st
  | .error _ => dummyState

/-- The expected files of the `rep` fixture. -/
def gefRep : FileState × List FileEntry :=
  match get_expected_files fsTex stRep with
  | .ok p => p
  | .error _ => (dummyState, [])

/-- The resolved state of a `new` publish for a pdf submission. -/
def stNewPdf : FileState :=
  match initFileState (some "2301.00001") (.vint 1) (some "new") (some ".pdf") "pdf" with
  | .ok st => st
  | .error _ => dummyState

/-- The expected files of the `new` pdf fixture. -/
def gefNewPdf : FileState × List FileEntry :=
  match get_expected_files fsTex stNewPdf with
  | .ok p => p
  | .error _ => (dummyState, [])

/-- A filesystem whose submission tarball contains `removed.txt` at top
level. -/
def fsRemoved : CitFS :=
  ⟨fun p => if p = "/data/ftp/arxiv/papers/2301/2301.00001.tar.gz" then some 9 else none,
   fun p => if p = "/data/ftp/arxiv/papers/2301/2301.00001.tar.gz"
            then ["removed.txt", "note.txt"] else [],
   fun _ => none, fun _ => none⟩

/-- The expected files of the removed fixture. -/
def gefRemoved : FileState × List FileEntry :=
  match get_expected_files fsRemoved stTex with
  | .ok p => p
  | .error _ => (dummyState, [])

/-- A filesystem whose single-file `.gz` starts with the auto-ignore
marker. -/
def fsIgnored : CitFS :=
  ⟨fun p => if p = "/data/ftp/arxiv/papers/2301/2301.00001.gz" then some 4 else none,
   fun _ => [],
   fun p => if p = "/data/ftp/arxiv/papers/2301/2301.00001.gz"
            then some "%auto-ignore extra" else none,
   fun _ => none⟩

/-- The expected files of the ignored fixture. -/
def gefIgnored : FileState × List FileEntry :=
  match get_expected_files fsIgnored stTex with
  | .ok p => p
  | .error _ => (dummyState, [])

/-! ### C1: transport failures of the generation request -/

/-- C1 counterexample: a processing attempt for a tex submission whose
rendered PDF is absent both before and after the generation request, with
the request raising a transport error — the ensure step fails with the
transport error itself, a distinct exception kind, not with
`MissingGeneratedFile` as the claim states. -/
theorem c1_counterexample :
    submission_message_to_file_state fsEmpty envPdfDown msgTex true =
      .error .connectionError ∧
    PyExc.connectionError ≠ PyExc.missingGeneratedFile :=
  ⟨rfl, by decide⟩

/-- C1 (amended): when the derived artifact (pdf-cache or html-cache) is
absent at the pre-check and the generation request raises, the ensure step
logs and re-raises that same exception — the original exception kind
propagates; `MissingGeneratedFile` is raised exactly when the request does
not raise but the post-check still finds the artifact absent. -/
theorem c1_transport_error_reraised (env : WebEnv) (p g : String) (err : PyExc)
    (habs : env.existsBefore p = false) :
    (env.ensurePdf = .error err →
      ask_webnode_entry env ⟨"pdf-cache", .path p, "current", g⟩ = .error err) ∧
    (env.ensurePdf = .ok () → env.existsAfter p = false →
      ask_webnode_entry env ⟨"pdf-cache", .path p, "current", g⟩ =
        .error .missingGeneratedFile) ∧
    (env.ensureHtml = .error err →
      ask_webnode_entry env ⟨"html-cache", .path p, "current", g⟩ = .error err) ∧
    (env.ensureHtml = .ok () → env.existsAfter p = false →
      ask_webnode_entry env ⟨"html-cache", .path p, "current", g⟩ =
        .error .missingGeneratedFile) := by
  refine ⟨fun h1 => ?_, fun h1 h2 => ?_, fun h1 => ?_, fun h1 h2 => ?_⟩
  · simp [ask_webnode_entry, citPath, habs, h1]
  · simp [ask_webnode_entry, citPath, habs, h1, h2]
  · simp [ask_webnode_entry, citPath, habs, h1]
  · simp [ask_webnode_entry, citPath, habs, h1, h2]

/-- Witness for the amended C1 theorem at concrete environments. -/
theorem c1_transport_error_reraised_witness :
    ask_webnode_entry envPdfDown ⟨"pdf-cache", .path "/x", "current", "x"⟩ =
      .error .connectionError ∧
    ask_webnode_entry envHtmlDown ⟨"pdf-cache", .path "/x", "current", "x"⟩ =
      .error .missingGeneratedFile ∧
    ask_webnode_entry envHtmlDown ⟨"html-cache", .path "/x", "current", "x"⟩ =
      .error .connectionError :=
  ⟨(c1_transport_error_reraised envPdfDown "/x" "x" .connectionError rfl).1 rfl,
   (c1_transport_error_reraised envHtmlDown "/x" "x" .connectionError rfl).2.1 rfl rfl,
   (c1_transport_error_reraised envHtmlDown "/x" "x" .connectionError rfl).2.2.1 rfl⟩

/-! ### C2: the html-cache entry holds a bound method, not the path -/

/-- C2 (code bug, evaluated): for a live html submission the expected-file
set has no pdf-cache entry and has a current html-cache entry, but that
entry's `cit` value is the bound method object `self.html_file` (the call
parentheses are missing in the source), not a path string at all — and the
webnode ensure step then crashes with `TypeError` when it applies `Path` to
the method object. -/
theorem c2_html_entry_is_method :
    ∃ st st' entries,
      initFileState (some "2301.00001") (.vint 1) (some "new")
        (some ".html.gz") "html" = .ok st ∧
      get_expected_files fsEmpty st = .ok (st', entries) ∧
      (∀ e ∈ entries, e.etype ≠ "pdf-cache") ∧
      (∃ e ∈ entries, e.etype = "html-cache" ∧ e.status = "current" ∧
        e.cit = .method "html_file" ∧ ∀ q, e.cit ≠ .path q) ∧
      submission_message_to_file_state fsEmpty envIdle msgHtml true =
        .error .typeError := by
  refine ⟨_, _, _, rfl, rfl, by decide, ?_, rfl⟩
  refine ⟨⟨"html-cache", .method "html_file", "current",
           "<bound method SubmissionFilesState.html_file>"⟩, by decide, rfl, rfl, rfl, ?_⟩
  intro q h
  exact CitVal.noConfusion h

/-! ### C3: source-type flags S/A/B crash the metadata update -/

/-- C3 (code bug, evaluated): with `source_format` absent and the last `Date`
line of the `.abs` sidecar carrying source-type code `SD`, the
metadata-update step does not complete: the `S` character reaches
`self.source_flags.append(...)` on a `str` value and raises
`AttributeError`, so the whole resolution fails instead of accumulating the
flag. -/
theorem c3_source_flags_append_raises :
    ∃ st,
      initFileState (some "2301.00001") (.vint 1) (some "new") (some ".gz") "" = .ok st ∧
      extractSourceType "Date: Thu, 1 Feb 2024 01:02:03 GMT   (100kb,SD)" =
        some (some "SD") ∧
      maybe_update_metadata fsAbsSD st = .error .attributeError ∧
      get_expected_files fsAbsSD st = .error .attributeError :=
  ⟨_, rfl, rfl, rfl, rfl⟩

/-! ### C6: version validation -/

/-- C6: a `version` argument that `int()` cannot parse, or that parses to a
non-positive integer, makes the `SubmissionFilesState` constructor fail with
`InvalidVersion` before any resolution; for a positive-integer version the
constructor never raises `InvalidVersion`. -/
theorem c6_invalid_version (pid : PyStrOpt) (v : VersionArg) (pt se : PyStrOpt)
    (sf : String) :
    ((intOf v = none ∨ ∃ n, intOf v = some n ∧ n ≤ 0) →
      initFileState pid v pt se sf = .error .invalidVersion) ∧
    (∀ n, intOf v = some n → 0 < n →
      initFileState pid v pt se sf ≠ .error .invalidVersion) := by
  constructor
  · rintro (h | ⟨n, h, hle⟩)
    · unfold initFileState; rw [h]
    · unfold initFileState; rw [h]; simp [hle]
  · intro n h hn
    have hne : ¬ n ≤ 0 := by omega
    unfold initFileState
    rw [h]
    cases pid with
    | none => simp [hne]
    | some p =>
      cases hmk : mkIdentifier p with
      | none => simp [hne, hmk]
      | some xid =>
        by_cases hv : xid.hasVersion
        · simp [hne, hmk, hv]
        · cases hmk2 : mkIdentifier (p ++ "v" ++ versionStr v) with
          | none => simp [hne, hmk, hmk2, hv]
          | some vx => simp [hne, hmk, hmk2, hv]

/-- Witness for C6 at a non-positive and at a positive version. -/
theorem c6_invalid_version_witness :
    initFileState (some "2301.00001") (.vint 0) (some "new") none "" =
      .error .invalidVersion ∧
    initFileState none (.vstr "x3") (some "new") none "" = .error .invalidVersion ∧
    initFileState (some "2301.00001") (.vint 3) (some "new") none "" ≠
      .error .invalidVersion :=
  ⟨(c6_invalid_version (some "2301.00001") (.vint 0) (some "new") none "").1
     (Or.inr ⟨0, rfl, by decide⟩),
   (c6_invalid_version none (.vstr "x3") (some "new") none "").1 (Or.inl rfl),
   (c6_invalid_version (some "2301.00001") (.vint 3) (some "new") none "").2 3 rfl
     (by decide)⟩

/-! ### C9: a decoded non-object payload escapes the callback -/

/-- C9 (code bug, evaluated): the payload `[]` decodes successfully to a JSON
array, so the decode stage does not nack; the field reads
(`data.get('type')`) then raise `AttributeError` before the callback's `try`
block, and the exception escapes — the message is neither acked nor nacked,
contradicting the claim that every failure results in a nack. -/
theorem c9_nonobject_payload_uncaught :
    decode_message [91, 93] = .ok (some (.arr [])) ∧
    submission_callback fsEmpty envIdle [] [91, 93] =
      ⟨.uncaught .attributeError, ["extract"]⟩ ∧
    CallbackResult.uncaught .attributeError ≠ .nack ∧
    CallbackResult.uncaught .attributeError ≠ .ack :=
  ⟨rfl, rfl, by decide, by decide⟩

/-! ### C10: totality of `decode_message` -/

/-- Helper: `decode_message` always returns (it never propagates an
exception), and its value is the composition of UTF-8 decoding and JSON
parsing. -/
lemma decode_message_eq_decoded (payload : List Nat) :
    decode_message payload = .ok (decoded_value payload) := by
  unfold decode_message bytes_decode_utf8 json_loads_exc decoded_value
  cases utf8Decode payload with
  | none => rfl
  | some cs =>
    cases h : jsonParse (String.mk cs) with
    | none => simp [h]
    | some j => simp [h]

/-- C10: `decode_message` is total — for every byte payload it returns
normally, with the parsed document exactly when the payload is valid UTF-8
text holding a valid JSON document and `None` in every other case; and on a
`None` the callback nacks at once, entering no pipeline stage. -/
theorem c10_decode_message_total (fs : CitFS) (env : WebEnv) (sto : Store)
    (payload : List Nat) :
    decode_message payload = .ok (decoded_value payload) ∧
    (decoded_value payload = none →
      submission_callback fs env sto payload = ⟨.nack, []⟩) := by
  refine ⟨decode_message_eq_decoded payload, fun h => ?_⟩
  unfold submission_callback
  rw [decode_message_eq_decoded payload, h]

/-- Witness for C10 at an invalid-UTF-8 payload. -/
theorem c10_decode_message_total_witness :
    decode_message [255] = .ok (decoded_value [255]) ∧
    submission_callback fsEmpty envIdle [] [255] = ⟨.nack, []⟩ :=
  ⟨(c10_decode_message_total fsEmpty envIdle [] [255]).1,
   (c10_decode_message_total fsEmpty envIdle [] [255]).2 rfl⟩

/-! ### Store lemmas for the reconciliation theorems -/

lemma storeFind_erase (sto : Store) (k key : String) :
    storeFind (storeErase sto k) key = if k = key then none else storeFind sto key := by
  induction sto with
  | nil => unfold storeErase storeFind; split <;> rfl
  | cons p rest ih =>
    obtain ⟨a, v⟩ := p
    by_cases hak : a = k
    · subst hak
      by_cases hkk : a = key
      · subst hkk; simp [storeErase, storeFind, ih]
      · simp [storeErase, storeFind, ih, hkk]
    · by_cases hakey : a = key
      · subst hakey
        have : ¬ k = a := fun h => hak h.symm
        simp [storeErase, storeFind, hak, this]
      · simp [storeErase, storeFind, hak, hakey, ih]

lemma storeFind_insert (sto : Store) (k key : String) (v : Nat) :
    storeFind (storeInsert sto k v) key = if k = key then some v else storeFind sto key := by
  unfold storeInsert
  show (if k = key then some v else storeFind (storeErase sto k) key) = _
  rw [storeFind_erase]
  by_cases h : k = key <;> simp [h]

lemma find_isSome_of_mem_keys (sto : Store) :
    ∀ K ∈ sto.map Prod.fst, (storeFind sto K).isSome := by
  induction sto with
  | nil => intro K hK; cases hK
  | cons p rest ih =>
    intro K hK
    obtain ⟨a, v⟩ := p
    by_cases h : a = K
    · simp [storeFind, h]
    · simp only [List.map_cons, List.mem_cons] at hK
      rcases hK with rfl | hK
      · exact absurd rfl h
      · simp [storeFind, h, ih K hK]

lemma trashKey_inj {a b : String} (h : trashKey a = trashKey b) : a = b := by
  have h2 := congrArg String.data h
  simp only [trashKey, String.data_append] at h2
  have h3 := List.append_cancel_left h2
  cases a; cases b
  exact congrArg String.mk h3

lemma not_trash_of_head (J : String) (h : J.data.head? ≠ some 't') :
    ∀ X, J ≠ trashKey X := by
  intro X hX
  refine h ?_
  rw [hX]
  cases X with
  | mk lx => rfl

lemma trash_preserve (objs : List String) :
    ∀ (sto sto' : Store) (K : String),
      trash_bucket_objects sto objs = .ok sto' →
      K ∉ objs → (∀ J ∈ objs, trashKey J ≠ K) →
      storeFind sto' K = storeFind sto K := by
  induction objs with
  | nil => intro sto sto' K h _ _; cases h; rfl
  | cons obj rest ih =>
    intro sto sto' K h hK hT
    simp only [List.mem_cons, not_or] at hK
    unfold trash_bucket_objects at h
    cases hf : storeFind sto obj with
    | none => rw [hf] at h; cases h
    | some v =>
      rw [hf] at h
      have h1 := ih _ sto' K h hK.2 (fun J hJ => hT J (List.mem_cons_of_mem obj hJ))
      rw [h1, storeFind_insert, storeFind_erase]
      have hne1 : ¬ trashKey obj = K := hT obj (List.mem_cons_self obj rest)
      have hne2 : ¬ obj = K := fun hEq => hK.1 hEq.symm
      simp [hne1, hne2]

lemma trash_spec (objs : List String) :
    ∀ (sto sto' : Store),
      trash_bucket_objects sto objs = .ok sto' →
      objs.Nodup → (∀ J ∈ objs, ∀ X, J ≠ trashKey X) →
      ∀ K ∈ objs, storeFind sto' K = none ∧ (storeFind sto' (trashKey K)).isSome := by
  induction objs with
  | nil => intro sto sto' _ _ _ K hK; cases hK
  | cons obj rest ih =>
    intro sto sto' h hnd hT K hK
    unfold trash_bucket_objects at h
    cases hf : storeFind sto obj with
    | none => rw [hf] at h; cases h
    | some v =>
      rw [hf] at h
      have hobjT : ∀ X, obj ≠ trashKey X := hT obj (List.mem_cons_self obj rest)
      rcases List.mem_cons.mp hK with rfl | hK'
      · have hnotin : K ∉ rest := (List.nodup_cons.mp hnd).1
        constructor
        · have hpre := trash_preserve rest _ sto' K h hnotin
            (fun J hJ hEq => hobjT J hEq.symm)
          rw [hpre, storeFind_insert, storeFind_erase]
          have : ¬ trashKey K = K := fun hEq => hobjT K hEq.symm
          simp [this]
        · have htnotin : trashKey K ∉ rest := fun hmem =>
            hT (trashKey K) (List.mem_cons_of_mem _ hmem) K rfl
          have hpre := trash_preserve rest _ sto' (trashKey K) h htnotin
            (fun J hJ hEq => hnotin (trashKey_inj hEq ▸ hJ))
          rw [hpre, storeFind_insert]
          simp
      · exact ih _ sto' h (List.nodup_cons.mp hnd).2
          (fun J hJ => hT J (List.mem_cons_of_mem obj hJ)) K hK'

lemma upload_entries_rem (fs : CitFS) :
    ∀ (entries : List FileEntry) (sto : Store) (b : Nat) (rem : List String)
      (sto' : Store) (b' : Nat) (rem' : List String),
      upload_entries fs entries sto b rem = .ok (sto', b', rem') →
      rem' = entries.foldl (fun r e => r.erase e.gcp) rem := by
  intro entries
  induction entries with
  | nil =>
    intro sto b rem sto' b' rem' h
    cases h; rfl
  | cons e rest ih =>
    intro sto b rem sto' b' rem' h
    unfold upload_entries at h
    split at h
    · cases h
    · split at h
      · cases h
      · rename_i q hup
        exact ih q.1 (b + q.2) (rem.erase e.gcp) sto' b' rem' h

lemma upload_entries_untouched (fs : CitFS) :
    ∀ (entries : List FileEntry) (sto : Store) (b : Nat) (rem : List String)
      (sto' : Store) (b' : Nat) (rem' : List String) (K : String),
      upload_entries fs entries sto b rem = .ok (sto', b', rem') →
      K ∉ entries.map FileEntry.gcp →
      storeFind sto' K = storeFind sto K := by
  intro entries
  induction entries with
  | nil =>
    intro sto b rem sto' b' rem' K h _
    cases h; rfl
  | cons e rest ih =>
    intro sto b rem sto' b' rem' K h hK
    simp only [List.map_cons, List.mem_cons, not_or] at hK
    unfold upload_entries at h
    split at h
    · cases h
    · split at h
      · cases h
      · rename_i q hup
        rw [ih q.1 (b + q.2) (rem.erase e.gcp) sto' b' rem' K h hK.2]
        unfold upload at hup
        split at hup
        · cases hup
        · rename_i n hfz
          split at hup
          · cases hup; rfl
          · cases hup
            show storeFind (storeInsert sto e.gcp n) K = storeFind sto K
            rw [storeFind_insert]
            have : ¬ e.gcp = K := fun hEq => hK.1 hEq.symm
            simp [this]

lemma upload_entries_present (fs : CitFS) :
    ∀ (entries : List FileEntry) (sto : Store) (b : Nat) (rem : List String)
      (sto' : Store) (b' : Nat) (rem' : List String) (K : String),
      upload_entries fs entries sto b rem = .ok (sto', b', rem') →
      (storeFind sto K).isSome → (storeFind sto' K).isSome := by
  intro entries
  induction entries with
  | nil =>
    intro sto b rem sto' b' rem' K h hs
    cases h; exact hs
  | cons e rest ih =>
    intro sto b rem sto' b' rem' K h hs
    unfold upload_entries at h
    split at h
    · cases h
    · split at h
      · cases h
      · rename_i q hup
        refine ih q.1 (b + q.2) (rem.erase e.gcp) sto' b' rem' K h ?_
        unfold upload at hup
        split at hup
        · cases hup
        · rename_i n hfz
          split at hup
          · cases hup; exact hs
          · cases hup
            show (storeFind (storeInsert sto e.gcp n) K).isSome
            rw [storeFind_insert]
            by_cases hEq : e.gcp = K
            · simp [hEq]
            · rw [if_neg hEq]; exact hs

lemma upload_entries_synced (fs : CitFS) :
    ∀ (entries : List FileEntry) (sto : Store) (b : Nat) (rem : List String),
      (∀ e ∈ entries, ∃ p n, e.cit = .path p ∧ fs.fileSize p = some n ∧
        storeFind sto e.gcp = some n) →
      upload_entries fs entries sto b rem =
        .ok (sto, b, entries.foldl (fun r e => r.erase e.gcp) rem) := by
  intro entries
  induction entries with
  | nil => intro sto b rem _; rfl
  | cons e rest ih =>
    intro sto b rem h
    obtain ⟨p, n, hcit, hfz, hfind⟩ := h e (List.mem_cons_self e rest)
    have hrest : ∀ e2 ∈ rest, ∃ p n, e2.cit = .path p ∧ fs.fileSize p = some n ∧
        storeFind sto e2.gcp = some n :=
      fun e2 he2 => h e2 (List.mem_cons_of_mem e he2)
    have hcp : citPath e.cit = .ok p := by rw [hcit]; rfl
    have hupload : upload fs sto p e.gcp = .ok (sto, 0) := by
      unfold upload
      simp only [hfz]
      rw [if_pos hfind]
    unfold upload_entries
    simp only [hcp, hupload, List.foldl_cons, Nat.add_zero]
    exact ih sto b (rem.erase e.gcp) hrest

lemma foldl_erase_sublist (entries : List FileEntry) :
    ∀ r : List String,
      List.Sublist (entries.foldl (fun r e => r.erase e.gcp) r) r := by
  induction entries with
  | nil => intro r; exact List.Sublist.refl r
  | cons e rest ih =>
    intro r
    exact (ih (r.erase e.gcp)).trans (List.erase_sublist e.gcp r)

lemma mem_foldl_erase (entries : List FileEntry) :
    ∀ (r : List String) (K : String), K ∈ r → K ∉ entries.map FileEntry.gcp →
      K ∈ entries.foldl (fun r e => r.erase e.gcp) r := by
  induction entries with
  | nil => intro r K h _; exact h
  | cons e rest ih =>
    intro r K h hK
    simp only [List.map_cons, List.mem_cons, not_or] at hK
    exact ih (r.erase e.gcp) K ((List.mem_erase_of_ne hK.1).mpr h) hK.2

lemma foldl_erase_eq_nil (entries : List FileEntry) :
    ∀ r : List String, r.Nodup → (∀ k ∈ r, k ∈ entries.map FileEntry.gcp) →
      entries.foldl (fun r e => r.erase e.gcp) r = [] := by
  induction entries with
  | nil =>
    intro r _ h
    cases r with
    | nil => rfl
    | cons a r' => exact absurd (h a (List.mem_cons_self a r')) (by simp)
  | cons e rest ih =>
    intro r hnd h
    refine ih (r.erase e.gcp) (hnd.erase e.gcp) ?_
    intro k hk
    have hkr := hnd.mem_erase_iff.mp hk
    have h2 := h k hkr.2
    simp only [List.map_cons, List.mem_cons] at h2
    exact h2.resolve_left hkr.1

lemma listed_nodup (sto : Store) (pre : String) (h : (sto.map Prod.fst).Nodup) :
    (list_bucket_objects sto pre).Nodup :=
  h.sublist ((List.filter_sublist sto).map Prod.fst)

lemma listed_subset (sto : Store) (pre : String) :
    ∀ K ∈ list_bucket_objects sto pre, K ∈ sto.map Prod.fst :=
  fun _ hK => ((List.filter_sublist sto).map Prod.fst).subset hK

/-! ### C4 and C5 -/

/-- C4: after a successful reconciliation, every destination key that was
listed under the paper's prefix but is not among the expected destination
keys has been moved to `trash/K` — absent from its original location,
present at the trash key — and no listed object has been deleted outright
(each survives at its own key or at its trash key).  The hypotheses require
the bucket's keys to be unique and none of them to lie in the trash
namespace, as is the case for keys under a paper's prefix. -/
theorem c4_trash_not_delete (fs : CitFS) (sto : Store) (st st1 : FileState)
    (desired : List FileEntry) (sto' : Store) (bytes : Nat) (trashed : List String)
    (K : String)
    (hnodup : (sto.map Prod.fst).Nodup)
    (hnotrash : ∀ J ∈ sto.map Prod.fst, ∀ X, J ≠ trashKey X)
    (hget : get_expected_files fs st = .ok (st1, desired))
    (hrun : sync_to_gcp fs sto st = .ok (sto', bytes, trashed))
    (hK : K ∈ list_bucket_objects sto (path_to_bucket_key (source_path st1 "")))
    (hKexp : K ∉ desired.map FileEntry.gcp) :
    storeFind sto' K = none ∧ (storeFind sto' (trashKey K)).isSome ∧
    ∀ J ∈ list_bucket_objects sto (path_to_bucket_key (source_path st1 "")),
      (storeFind sto' J).isSome ∨ (storeFind sto' (trashKey J)).isSome := by
  unfold sync_to_gcp at hrun
  simp only [hget] at hrun
  set listed := list_bucket_objects sto (path_to_bucket_key (source_path st1 "")) with hlst
  cases hup : upload_entries fs desired sto 0 listed with
  | error e => simp only [hup] at hrun; cases hrun
  | ok q =>
    simp only [hup] at hrun
    obtain ⟨sto1, b1, rem⟩ := q
    dsimp only at hrun
    have hrem : rem = desired.foldl (fun r e => r.erase e.gcp) listed :=
      upload_entries_rem fs desired sto 0 listed sto1 b1 rem hup
    have hKrem : K ∈ rem := hrem ▸ mem_foldl_erase desired listed K hK hKexp
    have hremsub : ∀ J ∈ rem, J ∈ listed :=
      fun J hJ => (hrem ▸ foldl_erase_sublist desired listed).subset (hrem ▸ hJ)
    have hremkeys : ∀ J ∈ rem, J ∈ sto.map Prod.fst :=
      fun J hJ => listed_subset sto _ J (hremsub J hJ)
    have hremnd : rem.Nodup :=
      (listed_nodup sto _ hnodup).sublist (hrem ▸ foldl_erase_sublist desired listed)
    have hremT : ∀ J ∈ rem, ∀ X, J ≠ trashKey X :=
      fun J hJ => hnotrash J (hremkeys J hJ)
    by_cases hempty : rem.isEmpty
    · exact absurd hKrem (by cases rem with
        | nil => exact List.not_mem_nil K
        | cons a r => cases hempty)
    · rw [if_neg hempty] at hrun
      cases htr : trash_bucket_objects sto1 rem with
      | error e => rw [htr] at hrun; cases hrun
      | ok sto2 =>
        rw [htr] at hrun
        cases hrun
        have hmain := trash_spec trashed sto1 sto' htr hremnd hremT
        refine ⟨(hmain K hKrem).1, (hmain K hKrem).2, ?_⟩
        intro J hJ
        by_cases hJrem : J ∈ trashed
        · exact Or.inr (hmain J hJrem).2
        · refine Or.inl ?_
          have hpres : storeFind sto' J = storeFind sto1 J :=
            trash_preserve trashed sto1 sto' J htr hJrem
              (fun O hO hEq => hnotrash J (listed_subset sto _ J hJ) O hEq.symm)
          rw [hpres]
          exact upload_entries_present fs desired sto 0 listed sto1 bytes trashed J hup
            (find_isSome_of_mem_keys sto J (listed_subset sto _ J hJ))

/-- Witness for C4: reconciling the store holding one unexpected key moves
it to the trash namespace and keeps every listed object recoverable. -/
theorem c4_trash_not_delete_witness :
    storeFind res4.1 "ftp/arxiv/papers/2301/2301.00001.xyz" = none ∧
    (storeFind res4.1 (trashKey "ftp/arxiv/papers/2301/2301.00001.xyz")).isSome ∧
    ∀ J ∈ list_bucket_objects stoExtra (path_to_bucket_key (source_path gefTex.1 "")),
      (storeFind res4.1 J).isSome ∨ (storeFind res4.1 (trashKey J)).isSome :=
  c4_trash_not_delete fsTex stoExtra stTex gefTex.1 gefTex.2 res4.1 res4.2.1 res4.2.2
    "ftp/arxiv/papers/2301/2301.00001.xyz"
    (by decide)
    (by
      intro J hJ
      have : J ∈ ["ftp/arxiv/papers/2301/2301.00001.abs",
                  "ftp/arxiv/papers/2301/2301.00001.tar.gz",
                  "ps_cache/arxiv/pdf/2301/2301.00001v1.pdf",
                  "ftp/arxiv/papers/2301/2301.00001.xyz"] := hJ
      simp only [List.mem_cons, List.mem_singleton] at this
      rcases this with rfl | rfl | rfl | rfl | h0
      · exact not_trash_of_head _ (by decide)
      · exact not_trash_of_head _ (by decide)
      · exact not_trash_of_head _ (by decide)
      · exact not_trash_of_head _ (by decide)
      · cases h0)
    rfl rfl (by decide) (by decide)

/-- C5: reconciliation is idempotent — against a store whose keys are unique,
which already holds every expected destination key with the local file's
size, and which has no other key under the paper's prefix, `sync_to_gcp`
transfers zero bytes, performs zero trash moves, and leaves the store
unchanged. -/
theorem c5_reconcile_idempotent (fs : CitFS) (sto : Store) (st st1 : FileState)
    (desired : List FileEntry)
    (hnodup : (sto.map Prod.fst).Nodup)
    (hget : get_expected_files fs st = .ok (st1, desired))
    (hsynced : ∀ e ∈ desired, ∃ p n, e.cit = .path p ∧ fs.fileSize p = some n ∧
      storeFind sto e.gcp = some n)
    (hnoextra : ∀ k ∈ list_bucket_objects sto (path_to_bucket_key (source_path st1 "")),
      k ∈ desired.map FileEntry.gcp) :
    sync_to_gcp fs sto st = .ok (sto, 0, []) := by
  unfold sync_to_gcp
  simp only [hget]
  rw [upload_entries_synced fs desired sto 0 _ hsynced,
      foldl_erase_eq_nil desired _ (listed_nodup sto _ hnodup) hnoextra]
  rfl

/-! ### State-preservation lemmas for C7 and C8 -/

lemma init_fields (pid : PyStrOpt) (n : Int) (pt se : PyStrOpt) (sf : String)
    (st : FileState) (h : initFileState pid (.vint n) pt se sf = .ok st) :
    st.publish_type = pt ∧ st.prev_version = max 1 (n - 1) := by
  unfold initFileState at h
  simp only [intOf] at h
  split at h
  · cases h
  · split at h
    · cases h
    · split at h
      · cases h
      · split at h
        · cases h
        · cases h
          exact ⟨rfl, rfl⟩

lemma probe_core (fs : CitFS) (st : FileState) :
    (probe_src_ext fs st).publish_type = st.publish_type ∧
    (probe_src_ext fs st).prev_version = st.prev_version := by
  unfold probe_src_ext
  split
  · split <;> exact ⟨rfl, rfl⟩
  · exact ⟨rfl, rfl⟩

lemma applyDates_core (st st' : FileState) (dates : List String)
    (h : applyDates st dates = .ok st') :
    st'.publish_type = st.publish_type ∧ st'.prev_version = st.prev_version := by
  unfold applyDates at h
  split at h
  · cases h; exact ⟨rfl, rfl⟩
  · split at h
    · cases h; exact ⟨rfl, rfl⟩
    · cases h
    · split at h
      · cases h
      · cases h; exact ⟨rfl, rfl⟩

lemma mum_core (fs : CitFS) (st st' : FileState)
    (h : maybe_update_metadata fs st = .ok st') :
    st'.publish_type = st.publish_type ∧ st'.prev_version = st.prev_version := by
  have hp := probe_core fs st
  simp only [maybe_update_metadata] at h
  split at h
  · cases h; exact hp
  · split at h
    · cases h
    · rename_i st1 had
      have ha := applyDates_core _ _ _ had
      split at h
      · cases h
        constructor
        · split
          · exact ha.1.trans hp.1
          · exact ha.1.trans hp.1
        · split
          · exact ha.2.trans hp.2
          · exact ha.2.trans hp.2
      · split at h
        · cases h; exact ⟨ha.1.trans hp.1, ha.2.trans hp.2⟩
        · cases h; exact ⟨ha.1.trans hp.1, ha.2.trans hp.2⟩
        · cases h; exact ⟨ha.1.trans hp.1, ha.2.trans hp.2⟩

lemma current_entries_core (fs : CitFS) (st st' : FileState) (cur : List FileEntry)
    (h : current_entries fs st = .ok (st', cur)) :
    st'.publish_type = st.publish_type ∧ st'.prev_version = st.prev_version ∧
    ∀ e ∈ cur, e.status = "current" := by
  simp only [current_entries] at h
  split at h
  · cases h
    exact ⟨rfl, rfl, by intro e he; fin_cases he <;> rfl⟩
  · split at h
    · cases h
    · cases h
      exact ⟨rfl, rfl, by intro e he; fin_cases he <;> rfl⟩
    · split at h
      · cases h
      · rename_i st1 hmum
        have hm := mum_core fs st st1 hmum
        split at h
        · cases h
        · cases h
          exact ⟨hm.1, hm.2, by intro e he; fin_cases he <;> rfl⟩
        · split at h
          · cases h
          · cases h
            exact ⟨hm.1, hm.2, by intro e he; fin_cases he <;> rfl⟩
          · cases h
            exact ⟨hm.1, hm.2, by intro e he; fin_cases he <;> rfl⟩

lemma obsolete_block_eq (fs : CitFS) (st : FileState) :
    obsolete_block fs st =
      if st.publish_type = some "rep" ∨ st.publish_type = some "wdr" then
        [⟨"abstract", .path (prev_source_path st ".abs"), "obsolete", ""⟩,
         ⟨"submission", .path (prev_source_path st (obsoleteExt fs st)), "obsolete", ""⟩]
      else [] := by
  unfold obsolete_block obsoleteExt
  split
  · cases hf : submission_exts.find? (fun e => pathExists fs (prev_source_path st e)) <;>
      simp [hf]
  · rfl

lemma filter_obsolete (cur obs : List FileEntry)
    (hcur : ∀ e ∈ cur, e.status = "current") :
    ((cur ++ obs).map addGcp).filter (fun e => e.status == "obsolete") =
      (obs.map addGcp).filter (fun e => e.status == "obsolete") := by
  rw [List.map_append, List.filter_append]
  have hnil : (cur.map addGcp).filter (fun e => e.status == "obsolete") = [] := by
    rw [List.filter_eq_nil_iff]
    intro e he
    obtain ⟨e0, he0, rfl⟩ := List.mem_map.mp he
    have h1 : (addGcp e0).status = "current" := hcur e0 he0
    rw [h1]
    decide
  rw [hnil, List.nil_append]

lemma filter_cursub (cur : List FileEntry) (fs : CitFS) (st : FileState) :
    ((cur ++ obsolete_block fs st).map addGcp).filter
        (fun e => e.etype == "submission" && e.status == "current") =
      (cur.map addGcp).filter (fun e => e.etype == "submission" && e.status == "current") := by
  rw [List.map_append, List.filter_append]
  have hnil : ((obsolete_block fs st).map addGcp).filter
      (fun e => e.etype == "submission" && e.status == "current") = [] := by
    rw [List.filter_eq_nil_iff]
    intro e he
    obtain ⟨e0, he0, rfl⟩ := List.mem_map.mp he
    rw [obsolete_block_eq] at he0
    split at he0
    · simp only [List.mem_cons, List.not_mem_nil, or_false] at he0
      rcases he0 with rfl | rfl
      · exact (by decide : ¬(("abstract" == "submission" && "obsolete" == "current") = true))
      · exact (by decide : ¬(("submission" == "submission" && "obsolete" == "current") = true))
    · cases he0
  rw [hnil, List.append_nil]

lemma current_entries_removed (fs : CitFS) (st : FileState)
    (hrem : is_removed fs st = true) :
    current_entries fs st = .ok (st,
      [⟨"abstract", .path (source_path st ".abs"), "current", ""⟩,
       ⟨"submission", .path (tgz_source st), "current", ""⟩]) := by
  unfold current_entries
  rw [if_pos hrem]

lemma current_entries_ignored (fs : CitFS) (st : FileState)
    (hrem : is_removed fs st = false) (hig : is_ignored fs st = .ok true) :
    current_entries fs st = .ok (st,
      [⟨"abstract", .path (source_path st ".abs"), "current", ""⟩,
       ⟨"submission", .path (gz_source st), "current", ""⟩]) := by
  unfold current_entries
  rw [if_neg (by simp [hrem])]
  simp only [hig]

/-! ### C7 and C8 -/

/-- C7: for a `rep` or `wdr` event with version `n`, the expected-file set
contains exactly one obsolete abstract entry and one obsolete submission
entry (in this order, at the end of the list), both built from the
previous-version path for version `max 1 (n − 1)`; the obsolete submission
entry's extension is the first of the priority list whose previous-version
path exists, else the current `src_ext`.  For `new`, `cross` and `jref`
events there are no obsolete entries at all. -/
theorem c7_obsolete_entries (fs : CitFS) (pid : PyStrOpt) (n : Int) (pt se : PyStrOpt)
    (sf : String) (st st' : FileState) (entries : List FileEntry)
    (hinit : initFileState pid (.vint n) pt se sf = .ok st)
    (hget : get_expected_files fs st = .ok (st', entries)) :
    ((pt = some "rep" ∨ pt = some "wdr") →
      st'.prev_version = max 1 (n - 1) ∧
      entries.filter (fun e => e.status == "obsolete") =
        [addGcp ⟨"abstract", .path (prev_source_path st' ".abs"), "obsolete", ""⟩,
         addGcp ⟨"submission", .path (prev_source_path st' (obsoleteExt fs st')),
           "obsolete", ""⟩]) ∧
    ((pt = some "new" ∨ pt = some "cross" ∨ pt = some "jref") →
      entries.filter (fun e => e.status == "obsolete") = []) := by
  obtain ⟨hpt, hprev⟩ := init_fields pid n pt se sf st hinit
  simp only [get_expected_files] at hget
  split at hget
  · cases hget
  · rename_i p hcur
    cases hget
    obtain ⟨hpt1, hprev1, hstat⟩ := current_entries_core fs st p.1 p.2 hcur
    constructor
    · intro hrw
      have hcond : p.1.publish_type = some "rep" ∨ p.1.publish_type = some "wdr" := by
        rw [hpt1, hpt]; exact hrw
      refine ⟨by rw [hprev1, hprev], ?_⟩
      rw [filter_obsolete p.2 _ hstat, obsolete_block_eq, if_pos hcond]
      rfl
    · intro hnew
      have hcond : ¬ (p.1.publish_type = some "rep" ∨ p.1.publish_type = some "wdr") := by
        rw [hpt1, hpt]
        rcases hnew with h | h | h <;> rw [h] <;> decide
      rw [filter_obsolete p.2 _ hstat, obsolete_block_eq, if_neg hcond]
      rfl

/-- Witness for C7 at a `rep` (version 2) event and a `new` event. -/
theorem c7_obsolete_entries_witness :
    (gefRep.1.prev_version = max 1 (2 - 1) ∧
      gefRep.2.filter (fun e => e.status == "obsolete") =
        [addGcp ⟨"abstract", .path (prev_source_path gefRep.1 ".abs"), "obsolete", ""⟩,
         addGcp ⟨"submission", .path (prev_source_path gefRep.1 (obsoleteExt fsTex gefRep.1)),
           "obsolete", ""⟩]) ∧
    gefNewPdf.2.filter (fun e => e.status == "obsolete") = [] :=
  ⟨(c7_obsolete_entries fsTex (some "2301.00001") 2 (some "rep") (some ".pdf") "pdf"
      stRep gefRep.1 gefRep.2 rfl rfl).1 (Or.inl rfl),
   (c7_obsolete_entries fsTex (some "2301.00001") 1 (some "new") (some ".pdf") "pdf"
      stNewPdf gefNewPdf.1 gefNewPdf.2 rfl rfl).2 (Or.inl rfl)⟩

/-- C8: when the submission tarball's member names include `removed.txt`,
the single current submission entry's source path is the `.tar.gz` path
regardless of `src_ext`; otherwise, when the single-file `.gz` exists and
its decompressed text starts with `%auto-ignore`, the single current
submission entry's source path is the plain `.gz` path. -/
theorem c8_removed_and_ignored (fs : CitFS) (st st' : FileState)
    (entries : List FileEntry)
    (hget : get_expected_files fs st = .ok (st', entries)) :
    ((fs.tgzNames (tgz_source st)).contains "removed.txt" = true →
      entries.filter (fun e => e.etype == "submission" && e.status == "current") =
        [addGcp ⟨"submission", .path (tgz_source st), "current", ""⟩]) ∧
    ((fs.tgzNames (tgz_source st)).contains "removed.txt" = false →
      pathExists fs (gz_source st) = true →
      (∃ t, fs.gzText (gz_source st) = some t ∧ pyStartsWith t "%auto-ignore" = true) →
      entries.filter (fun e => e.etype == "submission" && e.status == "current") =
        [addGcp ⟨"submission", .path (gz_source st), "current", ""⟩]) := by
  simp only [get_expected_files] at hget
  split at hget
  · cases hget
  · rename_i p hcur
    cases hget
    constructor
    · intro hrem
      rw [current_entries_removed fs st hrem] at hcur
      cases hcur
      rw [filter_cursub]
      rfl
    · intro hrem hex hig
      obtain ⟨t, hgz, hstart⟩ := hig
      have hi : is_ignored fs st = .ok true := by
        unfold is_ignored
        rw [hex]
        rw [if_pos rfl]
        simp only [hgz]
        rw [hstart]
      rw [current_entries_ignored fs st hrem hi] at hcur
      cases hcur
      rw [filter_cursub]
      rfl

/-- Witness for C8 at a removed and at an auto-ignored fixture. -/
theorem c8_removed_and_ignored_witness :
    gefRemoved.2.filter (fun e => e.etype == "submission" && e.status == "current") =
      [addGcp ⟨"submission", .path (tgz_source stTex), "current", ""⟩] ∧
    gefIgnored.2.filter (fun e => e.etype == "submission" && e.status == "current") =
      [addGcp ⟨"submission", .path (gz_source stTex), "current", ""⟩] :=
  ⟨(c8_removed_and_ignored fsRemoved stTex gefRemoved.1 gefRemoved.2 rfl).1 (by decide),
   (c8_removed_and_ignored fsIgnored stTex gefIgnored.1 gefIgnored.2 rfl).2 (by decide)
     (by decide) ⟨"%auto-ignore extra", rfl, by decide⟩⟩

/-- Witness for C5: the already-synced tex fixture reconciles with zero
bytes transferred and zero trash moves. -/
theorem c5_reconcile_idempotent_witness :
    sync_to_gcp fsTex stoSynced stTex = .ok (stoSynced, 0, []) :=
  c5_reconcile_idempotent fsTex stoSynced stTex gefTex.1 gefTex.2
    (by decide) rfl
    (by
      intro e he
      have : e ∈ [(⟨"abstract", .path "/data/ftp/arxiv/papers/2301/2301.00001.abs",
                    "current", "ftp/arxiv/papers/2301/2301.00001.abs"⟩ : FileEntry),
                  ⟨"submission", .path "/data/ftp/arxiv/papers/2301/2301.00001.tar.gz",
                    "current", "ftp/arxiv/papers/2301/2301.00001.tar.gz"⟩,
                  ⟨"pdf-cache", .path "/cache/ps_cache/arxiv/pdf/2301/2301.00001v1.pdf",
                    "current", "ps_cache/arxiv/pdf/2301/2301.00001v1.pdf"⟩] := he
      simp only [List.mem_cons, List.mem_singleton] at this
      rcases this with rfl | rfl | rfl | h0
      · exact ⟨"/data/ftp/arxiv/papers/2301/2301.00001.abs", 3, rfl, rfl, rfl⟩
      · exact ⟨"/data/ftp/arxiv/papers/2301/2301.00001.tar.gz", 10, rfl, rfl, rfl⟩
      · exact ⟨"/cache/ps_cache/arxiv/pdf/2301/2301.00001v1.pdf", 7, rfl, rfl, rfl⟩
      · cases h0)
    (by decide)

end SubsToGcp
